import Mathlib

/-!
Verification of the space-shooters simulation engine.

The definitions below are a shallow embedding of the Rust source
(`src/main.rs`, the reference variant with the enemy-movement counter).
`usize` coordinates become `Nat`; the `i32` direction/clamp arithmetic of
`move_enemies` and `move_player` is carried out in `Int` exactly as the
source does; the per-enemy random roll of `enemy_shoot` is abstracted by
an oracle `f : Nat → Bool` giving the outcome of each enemy's Bernoulli
trial; terminal rendering is embedded as the character grid the source
writes before printing.
-/

/-- Rust's `struct GameObject { x: usize, y: usize, alive: bool }`. -/
structure GameObject where
  x : Nat
  y : Nat
  alive : Bool
deriving DecidableEq, Repr

/-- Rust's `struct Game`, the whole world state of `main.rs`. -/
structure Game where
  player : GameObject
  enemies : List GameObject
  player_bullets : List GameObject
  enemy_bullets : List GameObject
  score : Nat
  game_over : Bool
  enemy_move_counter : Nat
deriving DecidableEq, Repr

/-- Rust's `const SCREEN_WIDTH: usize = 60`. -/
def SCREEN_WIDTH : Nat := 60

/-- Rust's `const SCREEN_HEIGHT: usize = 25`. -/
def SCREEN_HEIGHT : Nat := 25

/-- Rust's `const PLAYER_CHAR: char = '^'`. -/
def PLAYER_CHAR : Char := '^'

/-- Rust's `const ENEMY_CHAR: char = 'W'`. -/
def ENEMY_CHAR : Char := 'W'

/-- Rust's `const BULLET_CHAR: char = '|'`. -/
def BULLET_CHAR : Char := '|'

/-- Embeds `Game::spawn_enemies`: rows `0..5`, cols `0..10`, pushed row-major at
`(col*5+5, row*3+2)`, all alive. -/
def spawn_enemies : List GameObject :=
  (List.range 5).flatMap (fun row =>
    (List.range 10).map (fun col => ⟨col * 5 + 5, row * 3 + 2, true⟩))

/-- Embeds `Game::new`: centered player two rows above the bottom, fresh formation,
empty bullet lists, zero score, game running, counter zero. -/
def Game.new : Game :=
  { player := ⟨SCREEN_WIDTH / 2, SCREEN_HEIGHT - 2, true⟩
    enemies := spawn_enemies
    player_bullets := []
    enemy_bullets := []
    score := 0
    game_over := false
    enemy_move_counter := 0 }

/-- Embeds `Game::move_player`: `new_x = player.x + direction` in `i32`; applied
only when `new_x > 0 && new_x < SCREEN_WIDTH - 1`. -/
def Game.move_player (W : Nat) (s : Game) (direction : Int) : Game :=
  let new_x : Int := (s.player.x : Int) + direction
  if 0 < new_x ∧ new_x < (W : Int) - 1 then
    { s with player := { s.player with x := new_x.toNat } }
  else s

/-- Embeds `Game::shoot_bullet`: push a live bullet one row above the player. -/
def Game.shoot_bullet (s : Game) : Game :=
  { s with player_bullets :=
      s.player_bullets ++ [⟨s.player.x, s.player.y - 1, true⟩] }

/-- One player bullet's update in `Game::move_bullets`:
`if bullet.y > 0 && bullet.alive { y -= 1 } else { alive = false }`. -/
def stepPlayerBullet (b : GameObject) : GameObject :=
  if 0 < b.y ∧ b.alive = true then { b with y := b.y - 1 }
  else { b with alive := false }

/-- One enemy bullet's update in `Game::move_bullets`:
`if bullet.y < SCREEN_HEIGHT - 1 && bullet.alive { y += 1 } else { alive = false }`. -/
def stepEnemyBullet (H : Nat) (b : GameObject) : GameObject :=
  if b.y < H - 1 ∧ b.alive = true then { b with y := b.y + 1 }
  else { b with alive := false }

/-- The two motion loops of `Game::move_bullets`, before the final
`check_collisions` call. -/
def Game.moveBulletsMotion (H : Nat) (s : Game) : Game :=
  { s with
    player_bullets := s.player_bullets.map stepPlayerBullet
    enemy_bullets := s.enemy_bullets.map (stepEnemyBullet H) }

/-- Inner loop of `Game::check_collisions` for one player bullet: scan the
enemies in array order; the first live enemy at the bullet's exact position
is marked dead and scanning stops (`break`). Returns whether a hit happened
together with the updated enemy list. -/
def hitEnemies (b : GameObject) : List GameObject → Bool × List GameObject
  | [] => (false, [])
  | e :: es =>
    if e.alive && b.x == e.x && b.y == e.y then
      (true, { e with alive := false } :: es)
    else
      let r := hitEnemies b es
      (r.1, e :: r.2)

/-- Outer loop of `Game::check_collisions` phase 1: each live player bullet
scans the enemies as updated by earlier bullets; on a hit the bullet dies and
the score grows by 10. Dead bullets are skipped (`continue`). Returns the
updated bullets, enemies and score. -/
def processBullets : List GameObject → List GameObject → Nat →
    List GameObject × List GameObject × Nat
  | [], es, sc => ([], es, sc)
  | b :: bs, es, sc =>
    if b.alive then
      let h := hitEnemies b es
      let b2 := if h.1 then { b with alive := false } else b
      let sc2 := if h.1 then sc + 10 else sc
      let r := processBullets bs h.2 sc2
      (b2 :: r.1, r.2.1, r.2.2)
    else
      let r := processBullets bs es sc
      (b :: r.1, r.2.1, r.2.2)

/-- Phase 2 of `Game::check_collisions`: enemy bullets against the player;
the first live bullet at the player's exact position is marked dead and the
loop breaks. Returns the updated bullets and whether the player was hit. -/
def processEnemyBullets (px py : Nat) : List GameObject → List GameObject × Bool
  | [] => ([], false)
  | b :: bs =>
    if b.alive && b.x == px && b.y == py then
      ({ b with alive := false } :: bs, true)
    else
      let r := processEnemyBullets px py bs
      (b :: r.1, r.2)

/-- The cleanup block at the end of `Game::check_collisions`: the three
`retain(|o| o.alive)` calls. -/
def Game.prune (s : Game) : Game :=
  { s with
    player_bullets := s.player_bullets.filter (fun b => b.alive)
    enemy_bullets := s.enemy_bullets.filter (fun b => b.alive)
    enemies := s.enemies.filter (fun e => e.alive) }

/-- Embeds `Game::check_collisions`: phase 1 (player bullets vs. enemies), phase 2
(enemy bullets vs. player, setting `game_over` on a hit), then cleanup. -/
def Game.check_collisions (s : Game) : Game :=
  let r1 := processBullets s.player_bullets s.enemies s.score
  let r2 := processEnemyBullets s.player.x s.player.y s.enemy_bullets
  Game.prune
    { s with
      player_bullets := r1.1
      enemies := r1.2.1
      score := r1.2.2
      enemy_bullets := r2.1
      player := if r2.2 then { s.player with alive := false } else s.player
      game_over := if r2.2 then true else s.game_over }

/-- Embeds `Game::move_bullets`: move both bullet kinds, then `check_collisions`. -/
def Game.move_bullets (H : Nat) (s : Game) : Game :=
  Game.check_collisions (Game.moveBulletsMotion H s)

/-- The bullets pushed by `Game::enemy_shoot`: one per live enemy whose
Bernoulli trial (oracle `f`, indexed by position in the list) succeeded,
spawned one row below the enemy, in enemy order. -/
def shoot_spawns (f : Nat → Bool) : Nat → List GameObject → List GameObject
  | _, [] => []
  | i, e :: es =>
    (if e.alive && f i then [⟨e.x, e.y + 1, true⟩] else []) ++
      shoot_spawns f (i + 1) es

/-- Embeds `Game::enemy_shoot` with the random number generator abstracted by the
oracle `f`. -/
def Game.enemy_shoot (f : Nat → Bool) (s : Game) : Game :=
  { s with enemy_bullets := s.enemy_bullets ++ shoot_spawns f 0 s.enemies }

/-- The clamp of `Game::move_enemies`:
`(x as i32 + direction).max(0).min(SCREEN_WIDTH as i32 - 1) as usize`. -/
def clampX (W : Nat) (v : Int) : Nat := (min (max v 0) ((W : Int) - 1)).toNat

/-- The sweep loop of `Game::move_enemies`: enemies in array order, a running
direction (initially `1` on every call — it is a local variable of the Rust
function) that is negated whenever a moved enemy lands on column `0` or
`W-1`, and a `move_down` flag ORed over those edge events. Returns the moved
enemies, the final direction and the flag. -/
def sweepList (W : Nat) : List GameObject → Int → List GameObject × Int × Bool
  | [], d => ([], d, false)
  | e :: es, d =>
    if e.alive then
      let nx := clampX W ((e.x : Int) + d)
      let hitEdge : Bool := nx == 0 || nx == W - 1
      let r := sweepList W es (if hitEdge then -d else d)
      ({ e with x := nx } :: r.1, r.2.1, hitEdge || r.2.2)
    else
      let r := sweepList W es d
      (e :: r.1, r.2.1, r.2.2)

/-- The drop loop of `Game::move_enemies`: every live enemy's `y` grows by
one; the returned flag records whether some dropped enemy reached
`y >= SCREEN_HEIGHT - 3` (which sets `game_over` in the source). -/
def dropAll (H : Nat) : List GameObject → List GameObject × Bool
  | [] => ([], false)
  | e :: es =>
    let r := dropAll H es
    if e.alive then
      let e2 : GameObject := { e with y := e.y + 1 }
      (e2 :: r.1, (decide (H - 3 ≤ e2.y)) || r.2)
    else (e :: r.1, r.2)

/-- Embeds `Game::move_enemies`: the counter gates the sweep to every 5th call;
on a sweep call the counter resets, the enemies sweep with initial
direction `+1`, and if the edge flag was set every live enemy drops one row,
with `game_over` set when a dropped enemy reaches `SCREEN_HEIGHT - 3`. -/
def Game.move_enemies (W H : Nat) (s : Game) : Game :=
  let c := s.enemy_move_counter + 1
  if c < 5 then { s with enemy_move_counter := c }
  else
    let r := sweepList W s.enemies 1
    if r.2.2 then
      let d := dropAll H r.1
      { s with enemy_move_counter := 0, enemies := d.1,
               game_over := s.game_over || d.2 }
    else
      { s with enemy_move_counter := 0, enemies := r.1 }

/-- One fixed tick of the main loop's game logic, in source order:
`move_bullets()` (which ends in `check_collisions()`), `move_enemies()`,
`enemy_shoot()`. -/
def Game.tick (f : Nat → Bool) (s : Game) : Game :=
  Game.enemy_shoot f
    (Game.move_enemies SCREEN_WIDTH SCREEN_HEIGHT
      (Game.move_bullets SCREEN_HEIGHT s))

/-- The states reachable by the main loop: the fresh world, player moves and
shots applied between ticks, and full ticks run only while the game is not
over (the oracle `f` ranges over all possible random outcomes). -/
inductive Reachable : Game → Prop where
  | init : Reachable Game.new
  | move (d : Int) (s : Game) : Reachable s →
      Reachable (Game.move_player SCREEN_WIDTH s d)
  | fire (s : Game) : Reachable s → Reachable (Game.shoot_bullet s)
  | tickStep (f : Nat → Bool) (s : Game) : Reachable s →
      s.game_over = false → Reachable (Game.tick f s)

/-- One assignment `screen[o.y][o.x] = c` of `Game::render`, on the grid
viewed as a function of `(row, column)`. -/
def writeCell (c : Char) (o : GameObject) (g : Nat → Nat → Char) :
    Nat → Nat → Char :=
  fun y x => if y == o.y && x == o.x then c else g y x

/-- One drawing loop of `Game::render`: each live object of the list is
written in order, later writes overwriting earlier ones. -/
def drawList (c : Char) (os : List GameObject) (g : Nat → Nat → Char) :
    Nat → Nat → Char :=
  os.foldl (fun g o => if o.alive then writeCell c o g else g) g

/-- Embeds `Game::render`'s character grid: a blank canvas written in the fixed
order player, enemies, player bullets, enemy bullets. -/
def Game.render (s : Game) : Nat → Nat → Char :=
  drawList BULLET_CHAR s.enemy_bullets
    (drawList BULLET_CHAR s.player_bullets
      (drawList ENEMY_CHAR s.enemies
        (if s.player.alive then writeCell PLAYER_CHAR s.player (fun _ _ => ' ')
         else (fun _ _ => ' '))))

/-- An entity's coordinates, for frame conditions. -/
def posOf (e : GameObject) : Nat × Nat := (e.x, e.y)

/-- Entity positions all within the grid: `0 ≤ x < W` and `0 ≤ y < H`
(the lower bounds hold by the `Nat` embedding of `usize`). -/
def EntitiesInBounds (s : Game) : Prop :=
  (s.player.x < SCREEN_WIDTH ∧ s.player.y < SCREEN_HEIGHT) ∧
  (∀ e ∈ s.enemies, e.x < SCREEN_WIDTH ∧ e.y < SCREEN_HEIGHT) ∧
  (∀ b ∈ s.player_bullets, b.x < SCREEN_WIDTH ∧ b.y < SCREEN_HEIGHT) ∧
  (∀ b ∈ s.enemy_bullets, b.x < SCREEN_WIDTH ∧ b.y < SCREEN_HEIGHT)

/-- The inductive invariant of the main loop: the player sits on row
`H-2 = 23` strictly inside the vertical border; enemies are all alive (the
dead ones are pruned within the tick that kills them), within the clamp
range, and above the loss threshold row whenever the game is running;
bullets never leave the grid. -/
def GameInv (s : Game) : Prop :=
  s.player.y = 23 ∧ 0 < s.player.x ∧ s.player.x < 59 ∧
  (∀ e ∈ s.enemies, e.alive = true ∧ e.x ≤ 59 ∧ e.y ≤ 22) ∧
  (s.game_over = false → ∀ e ∈ s.enemies, e.y ≤ 21) ∧
  (∀ b ∈ s.player_bullets, b.x ≤ 59 ∧ b.y ≤ 24) ∧
  (∀ b ∈ s.enemy_bullets, b.x ≤ 59 ∧ b.y ≤ 24)

/-- A state whose single enemy is one column away from the right edge and
whose movement counter makes the next `move_enemies` call a sweep call. -/
def sC1 : Game :=
  { player := ⟨30, 23, true⟩, enemies := [⟨58, 2, true⟩],
    player_bullets := [], enemy_bullets := [],
    score := 0, game_over := false, enemy_move_counter := 4 }

/-- A state with the movement counter freshly reset (gate branch). -/
def sC2 : Game :=
  { player := ⟨30, 23, true⟩, enemies := [⟨10, 2, true⟩],
    player_bullets := [], enemy_bullets := [],
    score := 0, game_over := false, enemy_move_counter := 0 }

/-- A state whose player bullet is one row below the top edge and whose
enemy bullet is one row above the bottom edge. -/
def sC4 : Game :=
  { player := ⟨30, 23, true⟩, enemies := [],
    player_bullets := [⟨5, 1, true⟩], enemy_bullets := [⟨7, 23, true⟩],
    score := 0, game_over := false, enemy_move_counter := 0 }

/-- A state whose player stands on the leftmost reachable column. -/
def sC5 : Game :=
  { player := ⟨1, 23, true⟩, enemies := [], player_bullets := [],
    enemy_bullets := [], score := 0, game_over := false,
    enemy_move_counter := 0 }

/-- A state whose player stands in the middle of the row. -/
def sC5b : Game :=
  { player := ⟨5, 23, true⟩, enemies := [], player_bullets := [],
    enemy_bullets := [], score := 0, game_over := false,
    enemy_move_counter := 0 }

/-- A state in which the game is already over. -/
def sC6 : Game :=
  { player := ⟨30, 23, true⟩, enemies := [⟨10, 2, true⟩],
    player_bullets := [⟨4, 9, true⟩], enemy_bullets := [⟨6, 11, true⟩],
    score := 30, game_over := true, enemy_move_counter := 2 }

/-- The player's new column is the clamped conditional update of the source. -/
theorem move_player_x (W : Nat) (s : Game) (d : Int) :
    (Game.move_player W s d).player.x =
      (if 0 < (s.player.x : Int) + d ∧ (s.player.x : Int) + d < (W : Int) - 1
       then ((s.player.x : Int) + d).toNat else s.player.x) := by
  simp only [Game.move_player]
  split
  · rfl
  · rfl

/-- The function `move_player` touches nothing but the player's column. -/
theorem move_player_frame (W : Nat) (s : Game) (d : Int) :
    (Game.move_player W s d).player.y = s.player.y ∧
    (Game.move_player W s d).enemies = s.enemies ∧
    (Game.move_player W s d).player_bullets = s.player_bullets ∧
    (Game.move_player W s d).enemy_bullets = s.enemy_bullets ∧
    (Game.move_player W s d).game_over = s.game_over := by
  simp only [Game.move_player]
  split
  · exact ⟨rfl, rfl, rfl, rfl, rfl⟩
  · exact ⟨rfl, rfl, rfl, rfl, rfl⟩

/-- On a gated call (`counter + 1 < 5`) `move_enemies` only advances the
counter. -/
theorem move_enemies_gate (W H : Nat) (s : Game)
    (h : s.enemy_move_counter + 1 < 5) :
    Game.move_enemies W H s =
      { s with enemy_move_counter := s.enemy_move_counter + 1 } := by
  simp only [Game.move_enemies]
  rw [if_pos h]

/-- On a sweep call `move_enemies` resets the counter, sweeps, and drops the
formation when the edge flag is set. -/
theorem move_enemies_sweep (W H : Nat) (s : Game)
    (h : ¬ s.enemy_move_counter + 1 < 5) :
    Game.move_enemies W H s =
      (if (sweepList W s.enemies 1).2.2 then
        { s with enemy_move_counter := 0,
                 enemies := (dropAll H (sweepList W s.enemies 1).1).1,
                 game_over :=
                   s.game_over || (dropAll H (sweepList W s.enemies 1).1).2 }
       else
        { s with enemy_move_counter := 0,
                 enemies := (sweepList W s.enemies 1).1 }) := by
  simp only [Game.move_enemies]
  rw [if_neg h]

/-- The function `move_player` never changes `game_over`. -/
theorem move_player_game_over (W : Nat) (s : Game) (d : Int) :
    (Game.move_player W s d).game_over = s.game_over := by
  simp only [Game.move_player]
  split
  · rfl
  · rfl

/-- The function `check_collisions` only ever sets `game_over`, to the value forced by
phase 2's player-hit flag. -/
theorem check_collisions_game_over (s : Game) :
    (Game.check_collisions s).game_over =
      (if (processEnemyBullets s.player.x s.player.y s.enemy_bullets).2
       then true else s.game_over) := rfl

/-- The function `move_enemies` never clears `game_over`. -/
theorem move_enemies_game_over_mono (W H : Nat) (s : Game)
    (h : s.game_over = true) : (Game.move_enemies W H s).game_over = true := by
  by_cases hc : s.enemy_move_counter + 1 < 5
  · rw [move_enemies_gate W H s hc]
    exact h
  · rw [move_enemies_sweep W H s hc]
    split
    · simp [h]
    · exact h

/-- Sweeping an appended list threads the running direction and ORs the
edge flags, mirroring the single mutable loop of the source. -/
theorem sweepList_append (W : Nat) (l1 l2 : List GameObject) (d : Int) :
    sweepList W (l1 ++ l2) d =
      ((sweepList W l1 d).1 ++ (sweepList W l2 (sweepList W l1 d).2.1).1,
       (sweepList W l2 (sweepList W l1 d).2.1).2.1,
       (sweepList W l1 d).2.2 || (sweepList W l2 (sweepList W l1 d).2.1).2.2) := by
  induction l1 generalizing d with
  | nil => simp [sweepList]
  | cons e es ih =>
    by_cases he : e.alive <;>
      simp [sweepList, he, ih, Bool.or_assoc]

/-- If no enemy of a sweep landed on an edge, the running direction came out
unchanged. -/
theorem sweep_dir_no_edge (W : Nat) (l : List GameObject) (d : Int)
    (h : (sweepList W l d).2.2 = false) : (sweepList W l d).2.1 = d := by
  induction l generalizing d with
  | nil => rfl
  | cons e es ih =>
    by_cases he : e.alive
    · simp only [sweepList, he, if_pos] at h ⊢
      rcases Bool.or_eq_false_iff.mp h with ⟨h1, h2⟩
      rw [h1] at h2 ⊢
      simpa using ih d h2
    · simp only [sweepList, he] at h ⊢
      simp at h ⊢
      exact ih d h

/-- The drop loop raises exactly the live enemies' rows by one. -/
theorem dropAll_map_y (H : Nat) (l : List GameObject) :
    (dropAll H l).1.map (fun a => a.y) =
      l.map (fun a => if a.alive then a.y + 1 else a.y) := by
  induction l with
  | nil => rfl
  | cons e es ih =>
    by_cases he : e.alive
    · simp [dropAll, he, ih]
    · simp [dropAll, he, ih]

/-- The inner collision scan kills exactly the first live enemy at the
bullet's position, leaving everything before and after untouched. -/
theorem hitEnemies_split (b : GameObject) (pre post : List GameObject)
    (e : GameObject)
    (hpre : ∀ a ∈ pre, (a.alive && b.x == a.x && b.y == a.y) = false)
    (he : (e.alive && b.x == e.x && b.y == e.y) = true) :
    hitEnemies b (pre ++ e :: post) =
      (true, pre ++ { e with alive := false } :: post) := by
  induction pre with
  | nil => simp [hitEnemies, he]
  | cons a as ih =>
    have ha := hpre a (List.mem_cons_self a as)
    simp only [List.cons_append, hitEnemies, ha, List.append_eq,
      Bool.false_eq_true, if_false]
    rw [ih (fun a' ha' => hpre a' (List.mem_cons_of_mem a ha'))]

/-- The collision scans flip `alive` flags only: positions are preserved
pointwise through `hitEnemies`. -/
theorem hitEnemies_map_pos (b : GameObject) (es : List GameObject) :
    ((hitEnemies b es).2).map posOf = es.map posOf := by
  induction es with
  | nil => rfl
  | cons e es ih =>
    by_cases hc : (e.alive && b.x == e.x && b.y == e.y) = true
    · simp [hitEnemies, hc, posOf]
    · simp only [hitEnemies]
      rw [if_neg (by simpa using hc)]
      simp [ih]

/-- Phase 1 of the collision stage preserves the positions of both the
bullets and the enemies pointwise. -/
theorem processBullets_map_pos (bs es : List GameObject) (sc : Nat) :
    (processBullets bs es sc).1.map posOf = bs.map posOf ∧
    (processBullets bs es sc).2.1.map posOf = es.map posOf := by
  induction bs generalizing es sc with
  | nil => exact ⟨rfl, rfl⟩
  | cons b bs ih =>
    by_cases hb : b.alive
    · simp only [processBullets, hb, if_pos]
      constructor
      · simp only [List.map_cons]
        rw [(ih _ _).1]
        by_cases hh : (hitEnemies b es).1 <;> simp [hh, posOf]
      · rw [(ih _ _).2, hitEnemies_map_pos]
    · simp only [processBullets, hb]
      simp only [Bool.false_eq_true, if_false, List.map_cons]
      exact ⟨by rw [(ih _ _).1], (ih _ _).2⟩

/-- Phase 2 of the collision stage preserves enemy-bullet positions
pointwise. -/
theorem processEnemyBullets_map_pos (px py : Nat) (bs : List GameObject) :
    (processEnemyBullets px py bs).1.map posOf = bs.map posOf := by
  induction bs with
  | nil => rfl
  | cons b bs ih =>
    by_cases hc : (b.alive && b.x == px && b.y == py) = true
    · simp [processEnemyBullets, hc, posOf]
    · simp only [processEnemyBullets]
      rw [if_neg (by simpa using hc)]
      simp [ih]

/-- The player after `check_collisions`: possibly marked dead, never moved. -/
theorem check_collisions_player (s : Game) :
    (Game.check_collisions s).player =
      (if (processEnemyBullets s.player.x s.player.y s.enemy_bullets).2
       then { s.player with alive := false } else s.player) := rfl

/-- The enemies after `check_collisions` are the phase-1 survivors. -/
theorem check_collisions_enemies (s : Game) :
    (Game.check_collisions s).enemies =
      ((processBullets s.player_bullets s.enemies s.score).2.1).filter
        (fun e => e.alive) := rfl

/-- The player bullets after `check_collisions` are the phase-1 survivors. -/
theorem check_collisions_player_bullets (s : Game) :
    (Game.check_collisions s).player_bullets =
      ((processBullets s.player_bullets s.enemies s.score).1).filter
        (fun b => b.alive) := rfl

/-- The enemy bullets after `check_collisions` are the phase-2 survivors. -/
theorem check_collisions_enemy_bullets (s : Game) :
    (Game.check_collisions s).enemy_bullets =
      ((processEnemyBullets s.player.x s.player.y s.enemy_bullets).1).filter
        (fun b => b.alive) := rfl

/-- The function `check_collisions` never touches the movement counter. -/
theorem check_collisions_counter (s : Game) :
    (Game.check_collisions s).enemy_move_counter = s.enemy_move_counter := rfl

/-- A drawing loop writes its character exactly at the cells of its live
objects, leaving the rest of the canvas visible. -/
theorem drawList_apply (c : Char) (os : List GameObject) (g : Nat → Nat → Char)
    (y x : Nat) :
    drawList c os g y x =
      (if os.any (fun o => o.alive && (y == o.y && x == o.x)) then c
       else g y x) := by
  induction os generalizing g with
  | nil => simp [drawList]
  | cons o os ih =>
    have hstep : drawList c (o :: os) g =
        drawList c os (if o.alive then writeCell c o g else g) := rfl
    rw [hstep, ih, List.any_cons]
    by_cases hos : os.any (fun o => o.alive && (y == o.y && x == o.x)) = true
    · simp [hos]
    · simp only [Bool.not_eq_true] at hos
      rw [hos]
      by_cases ho : o.alive
      · by_cases hm : (y == o.y && x == o.x) = true
        · simp [ho, hm, writeCell]
        · simp only [Bool.not_eq_true] at hm
          simp [ho, hm, writeCell]
      · simp only [Bool.not_eq_true] at ho
        simp [ho]

/-- Bounds are stable under the edge clamp. -/
theorem clampX_le (W : Nat) (v : Int) (hW : 1 ≤ W) : clampX W v ≤ W - 1 := by
  unfold clampX
  have h1 : min (max v 0) ((W : Int) - 1) ≤ (W : Int) - 1 := min_le_right _ _
  have h2 : (0 : Int) ≤ min (max v 0) ((W : Int) - 1) :=
    le_min (le_max_right v 0) (by omega)
  omega

/-- A player bullet's motion step keeps it inside the grid. -/
theorem stepPlayerBullet_bounds (b : GameObject) (h : b.x ≤ 59 ∧ b.y ≤ 24) :
    (stepPlayerBullet b).x ≤ 59 ∧ (stepPlayerBullet b).y ≤ 24 := by
  unfold stepPlayerBullet
  split
  · refine ⟨h.1, ?_⟩
    show b.y - 1 ≤ 24
    omega
  · exact h

/-- An enemy bullet's motion step keeps it inside the grid. -/
theorem stepEnemyBullet_bounds (b : GameObject) (h : b.x ≤ 59 ∧ b.y ≤ 24) :
    (stepEnemyBullet 25 b).x ≤ 59 ∧ (stepEnemyBullet 25 b).y ≤ 24 := by
  unfold stepEnemyBullet
  split
  · refine ⟨h.1, ?_⟩
    show b.y + 1 ≤ 24
    omega
  · exact h

/-- Pointwise position preservation lets bounds transfer along collision
results. -/
theorem mem_of_map_pos_eq {l l' : List GameObject}
    (h : l'.map posOf = l.map posOf) {a : GameObject} (ha : a ∈ l') :
    ∃ a0 ∈ l, a0.x = a.x ∧ a0.y = a.y := by
  have hmem : posOf a ∈ l.map posOf := by
    rw [← h]
    exact List.mem_map_of_mem posOf ha
  rcases List.mem_map.mp hmem with ⟨a0, ha0, heq⟩
  refine ⟨a0, ha0, ?_, ?_⟩
  · exact congrArg Prod.fst heq
  · exact congrArg Prod.snd heq

/-- The collision stage keeps all surviving entities inside the grid and
leaves the surviving enemies all alive. -/
theorem check_collisions_inv (s : Game)
    (hen : ∀ e ∈ s.enemies, e.x ≤ 59 ∧ e.y ≤ 21)
    (hpb : ∀ b ∈ s.player_bullets, b.x ≤ 59 ∧ b.y ≤ 24)
    (heb : ∀ b ∈ s.enemy_bullets, b.x ≤ 59 ∧ b.y ≤ 24) :
    (∀ e ∈ (Game.check_collisions s).enemies,
      e.alive = true ∧ e.x ≤ 59 ∧ e.y ≤ 21) ∧
    (∀ b ∈ (Game.check_collisions s).player_bullets, b.x ≤ 59 ∧ b.y ≤ 24) ∧
    (∀ b ∈ (Game.check_collisions s).enemy_bullets, b.x ≤ 59 ∧ b.y ≤ 24) := by
  refine ⟨?_, ?_, ?_⟩
  · intro e he
    rw [check_collisions_enemies] at he
    rcases List.mem_filter.mp he with ⟨hmem, halive⟩
    rcases mem_of_map_pos_eq
      (processBullets_map_pos s.player_bullets s.enemies s.score).2 hmem with
      ⟨e0, he0, hx, hy⟩
    have := hen e0 he0
    exact ⟨halive, by omega, by omega⟩
  · intro b hb
    rw [check_collisions_player_bullets] at hb
    rcases List.mem_filter.mp hb with ⟨hmem, _⟩
    rcases mem_of_map_pos_eq
      (processBullets_map_pos s.player_bullets s.enemies s.score).1 hmem with
      ⟨b0, hb0, hx, hy⟩
    have := hpb b0 hb0
    exact ⟨by omega, by omega⟩
  · intro b hb
    rw [check_collisions_enemy_bullets] at hb
    rcases List.mem_filter.mp hb with ⟨hmem, _⟩
    rcases mem_of_map_pos_eq
      (processEnemyBullets_map_pos s.player.x s.player.y s.enemy_bullets)
      hmem with ⟨b0, hb0, hx, hy⟩
    have := heb b0 hb0
    exact ⟨by omega, by omega⟩

/-- The sweep keeps live enemies bounded and does not change rows or
aliveness. -/
theorem sweep_bounds (es : List GameObject)
    (h : ∀ e ∈ es, e.alive = true ∧ e.x ≤ 59 ∧ e.y ≤ 21) (d : Int) :
    ∀ a ∈ (sweepList 60 es d).1, a.alive = true ∧ a.x ≤ 59 ∧ a.y ≤ 21 := by
  induction es generalizing d with
  | nil => intro a ha; simp [sweepList] at ha
  | cons e es ih =>
    have he := h e (List.mem_cons_self e es)
    intro a ha
    simp only [sweepList, he.1, if_pos] at ha
    rcases List.mem_cons.mp ha with ha | ha
    · subst ha
      refine ⟨rfl, ?_, he.2.2⟩
      show clampX 60 ((e.x : Int) + d) ≤ 59
      have := clampX_le 60 ((e.x : Int) + d) (by omega)
      omega
    · exact ih (fun e' he' => h e' (List.mem_cons_of_mem e he')) _ a ha

/-- Dropping bounded live enemies keeps them on the grid; if no dropped enemy
reached the loss threshold row, all stayed strictly above it. -/
theorem dropAll_bounds (es : List GameObject)
    (h : ∀ e ∈ es, e.alive = true ∧ e.x ≤ 59 ∧ e.y ≤ 21) :
    (∀ a ∈ (dropAll 25 es).1, a.alive = true ∧ a.x ≤ 59 ∧ a.y ≤ 22) ∧
    ((dropAll 25 es).2 = false → ∀ a ∈ (dropAll 25 es).1, a.y ≤ 21) := by
  induction es with
  | nil =>
    constructor
    · intro a ha; simp [dropAll] at ha
    · intro _ a ha; simp [dropAll] at ha
  | cons e es ih =>
    have he := h e (List.mem_cons_self e es)
    have ihr := ih (fun e' he' => h e' (List.mem_cons_of_mem e he'))
    simp only [dropAll, he.1, if_pos]
    constructor
    · intro a ha
      rcases List.mem_cons.mp ha with ha | ha
      · subst ha
        refine ⟨rfl, he.2.1, ?_⟩
        show e.y + 1 ≤ 22
        omega
      · exact ihr.1 a ha
    · intro hf a ha
      rcases Bool.or_eq_false_iff.mp hf with ⟨hf1, hf2⟩
      rcases List.mem_cons.mp ha with ha | ha
      · subst ha
        have : ¬ (25 - 3 ≤ e.y + 1) := by
          intro hcon
          simp [hcon] at hf1
        show e.y + 1 ≤ 21
        omega
      · exact ihr.2 hf2 a ha

/-- The function `move_enemies` never touches the player or the bullet lists. -/
theorem move_enemies_frame (W H : Nat) (s : Game) :
    (Game.move_enemies W H s).player = s.player ∧
    (Game.move_enemies W H s).player_bullets = s.player_bullets ∧
    (Game.move_enemies W H s).enemy_bullets = s.enemy_bullets := by
  by_cases hc : s.enemy_move_counter + 1 < 5
  · rw [move_enemies_gate W H s hc]
    exact ⟨rfl, rfl, rfl⟩
  · rw [move_enemies_sweep W H s hc]
    split
    · exact ⟨rfl, rfl, rfl⟩
    · exact ⟨rfl, rfl, rfl⟩

/-- The whole of `move_enemies` keeps all-alive bounded formations bounded,
and above the loss threshold whenever the game is still running afterwards. -/
theorem move_enemies_inv (s : Game)
    (hen : ∀ e ∈ s.enemies, e.alive = true ∧ e.x ≤ 59 ∧ e.y ≤ 21) :
    (∀ e ∈ (Game.move_enemies 60 25 s).enemies,
      e.alive = true ∧ e.x ≤ 59 ∧ e.y ≤ 22) ∧
    ((Game.move_enemies 60 25 s).game_over = false →
      ∀ e ∈ (Game.move_enemies 60 25 s).enemies, e.y ≤ 21) := by
  by_cases hc : s.enemy_move_counter + 1 < 5
  · rw [move_enemies_gate 60 25 s hc]
    exact ⟨fun e he => ⟨(hen e he).1, (hen e he).2.1,
        by have := (hen e he).2.2; omega⟩,
      fun _ e he => (hen e he).2.2⟩
  · rw [move_enemies_sweep 60 25 s hc]
    split
    · constructor
      · intro e he
        have hs := sweep_bounds s.enemies hen 1
        exact (dropAll_bounds _ (fun a ha => hs a ha)).1 e he
      · intro hgo e he
        have hs := sweep_bounds s.enemies hen 1
        have hor : s.game_over = false ∧
            (dropAll 25 (sweepList 60 s.enemies 1).1).2 = false :=
          Bool.or_eq_false_iff.mp hgo
        exact (dropAll_bounds _ (fun a ha => hs a ha)).2 hor.2 e he
    · constructor
      · intro e he
        have := sweep_bounds s.enemies hen 1 e he
        exact ⟨this.1, this.2.1, by omega⟩
      · intro _ e he
        exact (sweep_bounds s.enemies hen 1 e he).2.2

/-- Every bullet spawned by `enemy_shoot` sits one row below some enemy. -/
theorem shoot_spawns_mem (f : Nat → Bool) (es : List GameObject) (i : Nat)
    (b : GameObject) (hb : b ∈ shoot_spawns f i es) :
    ∃ e ∈ es, b = ⟨e.x, e.y + 1, true⟩ := by
  induction es generalizing i with
  | nil => simp [shoot_spawns] at hb
  | cons e es ih =>
    simp only [shoot_spawns, List.mem_append] at hb
    rcases hb with hb | hb
    · refine ⟨e, List.mem_cons_self e es, ?_⟩
      by_cases hc : (e.alive && f i) = true
      · rw [if_pos hc] at hb
        simpa using hb
      · rw [if_neg hc] at hb
        simp at hb
    · rcases ih (i + 1) hb with ⟨e0, he0, heq⟩
      exact ⟨e0, List.mem_cons_of_mem e he0, heq⟩

/-- The fresh world satisfies the invariant. -/
theorem gameInv_init : GameInv Game.new := by
  unfold GameInv
  decide

/-- Player movement preserves the invariant. -/
theorem gameInv_move_player (s : Game) (d : Int) (h : GameInv s) :
    GameInv (Game.move_player SCREEN_WIDTH s d) := by
  obtain ⟨hy, hx1, hx2, hen, hgo, hpb, heb⟩ := h
  obtain ⟨fy, fen, fpb, feb, fgo⟩ := move_player_frame SCREEN_WIDTH s d
  have hx := move_player_x SCREEN_WIDTH s d
  refine ⟨by rw [fy]; exact hy, ?_, ?_, by rw [fen]; exact hen,
    by rw [fgo, fen]; exact hgo, by rw [fpb]; exact hpb, by rw [feb]; exact heb⟩
  · rw [hx]
    split
    · omega
    · exact hx1
  · rw [hx]
    split
    · have : (SCREEN_WIDTH : Int) = 60 := rfl
      omega
    · exact hx2

/-- Firing preserves the invariant. -/
theorem gameInv_shoot_bullet (s : Game) (h : GameInv s) :
    GameInv (Game.shoot_bullet s) := by
  obtain ⟨hy, hx1, hx2, hen, hgo, hpb, heb⟩ := h
  refine ⟨hy, hx1, hx2, hen, hgo, ?_, heb⟩
  intro b hb
  simp only [Game.shoot_bullet, List.mem_append, List.mem_singleton] at hb
  rcases hb with hb | hb
  · exact hpb b hb
  · subst hb
    constructor
    · show s.player.x ≤ 59
      omega
    · show s.player.y - 1 ≤ 24
      omega

/-- A full tick from a running invariant state lands in an invariant state. -/
theorem gameInv_tick (f : Nat → Bool) (s : Game) (h : GameInv s)
    (hgo : s.game_over = false) : GameInv (Game.tick f s) := by
  obtain ⟨hy, hx1, hx2, hen, hgoen, hpb, heb⟩ := h
  have henU : ∀ e ∈ s.enemies, e.alive = true ∧ e.x ≤ 59 ∧ e.y ≤ 21 :=
    fun e he => ⟨(hen e he).1, (hen e he).2.1, hgoen hgo e he⟩
  set t1 := Game.moveBulletsMotion 25 s with ht1
  have t1pb : ∀ b ∈ t1.player_bullets, b.x ≤ 59 ∧ b.y ≤ 24 := by
    intro b hb
    rcases List.mem_map.mp hb with ⟨b0, hb0, heq⟩
    subst heq
    exact stepPlayerBullet_bounds b0 (hpb b0 hb0)
  have t1eb : ∀ b ∈ t1.enemy_bullets, b.x ≤ 59 ∧ b.y ≤ 24 := by
    intro b hb
    rcases List.mem_map.mp hb with ⟨b0, hb0, heq⟩
    subst heq
    exact stepEnemyBullet_bounds b0 (heb b0 hb0)
  have t1en : ∀ e ∈ t1.enemies, e.alive = true ∧ e.x ≤ 59 ∧ e.y ≤ 21 := henU
  set t2 := Game.check_collisions t1 with ht2
  have hcc := check_collisions_inv t1 (fun e he => (t1en e he).2) t1pb t1eb
  have t2player : t2.player.x = s.player.x ∧ t2.player.y = s.player.y := by
    rw [ht2, check_collisions_player]
    constructor
    · split
      · rfl
      · rfl
    · split
      · rfl
      · rfl
  set t3 := Game.move_enemies 60 25 t2 with ht3
  have hme := move_enemies_inv t2 hcc.1
  have hmf := move_enemies_frame 60 25 t2
  show GameInv (Game.enemy_shoot f t3)
  refine ⟨?_, ?_, ?_, ?_, ?_, ?_, ?_⟩
  · show t3.player.y = 23
    rw [hmf.1, t2player.2, hy]
  · show 0 < t3.player.x
    rw [hmf.1, t2player.1]
    exact hx1
  · show t3.player.x < 59
    rw [hmf.1, t2player.1]
    exact hx2
  · show ∀ e ∈ t3.enemies, e.alive = true ∧ e.x ≤ 59 ∧ e.y ≤ 22
    exact hme.1
  · show (Game.enemy_shoot f t3).game_over = false → ∀ e ∈ t3.enemies, e.y ≤ 21
    intro hg
    exact hme.2 hg
  · show ∀ b ∈ t3.player_bullets, b.x ≤ 59 ∧ b.y ≤ 24
    rw [hmf.2.1]
    exact hcc.2.1
  · show ∀ b ∈ t3.enemy_bullets ++ shoot_spawns f 0 t3.enemies,
      b.x ≤ 59 ∧ b.y ≤ 24
    intro b hb
    rcases List.mem_append.mp hb with hb | hb
    · rw [hmf.2.2] at hb
      exact hcc.2.2 b hb
    · rcases shoot_spawns_mem f t3.enemies 0 b hb with ⟨e0, he0, heq⟩
      have := hme.1 e0 he0
      subst heq
      constructor
      · show e0.x ≤ 59
        omega
      · show e0.y + 1 ≤ 24
        omega

/-- The invariant holds in every reachable state. -/
theorem gameInv_reachable (s : Game) (h : Reachable s) : GameInv s := by
  induction h with
  | init => exact gameInv_init
  | move d s _ ih => exact gameInv_move_player s d ih
  | fire s _ ih => exact gameInv_shoot_bullet s ih
  | tickStep f s _ hgo ih => exact gameInv_tick f s ih hgo

/-- The invariant pins every entity inside the grid. -/
theorem entitiesInBounds_of_gameInv (s : Game) (h : GameInv s) :
    EntitiesInBounds s := by
  obtain ⟨hy, hx1, hx2, hen, _, hpb, heb⟩ := h
  simp only [EntitiesInBounds, SCREEN_WIDTH, SCREEN_HEIGHT]
  refine ⟨⟨by omega, by omega⟩, ?_, ?_, ?_⟩
  · intro e he
    have := hen e he
    exact ⟨by omega, by omega⟩
  · intro b hb
    have := hpb b hb
    exact ⟨by omega, by omega⟩
  · intro b hb
    have := heb b hb
    exact ⟨by omega, by omega⟩

/-- Claim C1, counterexample. The sweep direction is NOT persistent state:
from `sC1` (one enemy at column 58, sweep due), the first sweep moves the
enemy to the right edge (column 59), flips the running direction and drops
the formation — but the next sweep (five calls later) again starts moving
right, so the enemy stays clamped at column 59 and drops again, instead of
moving left to column 58 as the claim requires. -/
theorem c1_counterexample :
    (Game.move_enemies 60 25 sC1).enemies = [⟨59, 3, true⟩] ∧
    (Game.move_enemies 60 25 (Game.move_enemies 60 25 (Game.move_enemies 60 25
      (Game.move_enemies 60 25 (Game.move_enemies 60 25
        (Game.move_enemies 60 25 sC1)))))).enemies = [⟨59, 4, true⟩] ∧
    ¬ (Game.move_enemies 60 25 (Game.move_enemies 60 25 (Game.move_enemies 60 25
      (Game.move_enemies 60 25 (Game.move_enemies 60 25
        (Game.move_enemies 60 25 sC1)))))).enemies.map (fun a => a.x) = [58] := by
  decide

/-- Claim C1, amended: on a sweep call the running direction starts at `+1`
regardless of history (it is a local variable of `move_enemies`, not
persistent state). Enemies are processed in array order; when a moved enemy
lands on column 0 or `W-1` the direction is negated for the remaining
enemies of the same sweep and the drop flag is set; when the flag is set,
every live enemy's row grows by exactly one in this sweep, the counter
resets, and `game_over` picks up the threshold flag. Here: a live enemy `e`
at column `W-2`, preceded by enemies that hit no edge, lands exactly on
`W-1`, and the tail `post` is swept with direction `-1`. -/
theorem c1_sweep_local_direction (W H : Nat) (s : Game)
    (hc : 5 ≤ s.enemy_move_counter + 1)
    (pre post : List GameObject) (e : GameObject)
    (hes : s.enemies = pre ++ e :: post)
    (hpre : (sweepList W pre 1).2.2 = false)
    (he : e.alive = true) (hx : e.x + 2 = W) :
    (Game.move_enemies W H s).enemies =
      (dropAll H ((sweepList W pre 1).1 ++
        { e with x := W - 1 } :: (sweepList W post (-1)).1)).1 ∧
    (Game.move_enemies W H s).enemy_move_counter = 0 ∧
    (Game.move_enemies W H s).game_over =
      (s.game_over || (dropAll H ((sweepList W pre 1).1 ++
        { e with x := W - 1 } :: (sweepList W post (-1)).1)).2) ∧
    (Game.move_enemies W H s).enemies.map (fun a => a.y) =
      ((sweepList W pre 1).1 ++
        { e with x := W - 1 } :: (sweepList W post (-1)).1).map
        (fun a => if a.alive then a.y + 1 else a.y) := by
  have hdir := sweep_dir_no_edge W pre 1 hpre
  have h1 : ((e.x : Int) + 1) = (W : Int) - 1 := by omega
  have hclamp : clampX W ((e.x : Int) + 1) = W - 1 := by
    unfold clampX
    rw [h1, max_eq_left (by omega), min_self]
    omega
  have hhead : sweepList W (e :: post) 1 =
      ({ e with x := W - 1 } :: (sweepList W post (-1)).1,
       (sweepList W post (-1)).2.1, true) := by
    simp only [sweepList, he, if_pos, hclamp]
    simp
  have hsweep : sweepList W s.enemies 1 =
      ((sweepList W pre 1).1 ++
        { e with x := W - 1 } :: (sweepList W post (-1)).1,
       (sweepList W post (-1)).2.1, true) := by
    rw [hes, sweepList_append, hdir, hhead]
    simp [hpre]
  rw [move_enemies_sweep W H s (by omega), hsweep]
  simp only []
  refine ⟨rfl, rfl, rfl, ?_⟩
  exact dropAll_map_y H _

/-- Witness for C1's amended theorem at `sC1`: the enemy at column 58 lands
on the right edge, the whole formation drops one row, the counter resets and
the game stays running. -/
theorem c1_sweep_local_direction_witness :
    (Game.move_enemies 60 25 sC1).enemies = [⟨59, 3, true⟩] ∧
    (Game.move_enemies 60 25 sC1).enemy_move_counter = 0 ∧
    (Game.move_enemies 60 25 sC1).game_over = false ∧
    (Game.move_enemies 60 25 sC1).enemies.map (fun a => a.y) = [3] :=
  c1_sweep_local_direction 60 25 sC1 (by decide) [] [] ⟨58, 2, true⟩
    rfl rfl rfl rfl

/-- Claim C2: the enemy sweep is gated by the tick counter with N = 5. If
fewer than 5 calls have elapsed since the last sweep, `move_enemies` leaves
the whole state unchanged except for advancing the counter; on the 5th call
the counter resets to 0 and the sweep (with its conditional drop) runs. -/
theorem c2_sweep_gating (W H : Nat) (s : Game) :
    (s.enemy_move_counter + 1 < 5 →
      Game.move_enemies W H s =
        { s with enemy_move_counter := s.enemy_move_counter + 1 }) ∧
    (5 ≤ s.enemy_move_counter + 1 →
      (Game.move_enemies W H s).enemy_move_counter = 0 ∧
      (Game.move_enemies W H s).enemies =
        (if (sweepList W s.enemies 1).2.2
         then (dropAll H (sweepList W s.enemies 1).1).1
         else (sweepList W s.enemies 1).1)) := by
  constructor
  · intro h
    exact move_enemies_gate W H s h
  · intro h
    rw [move_enemies_sweep W H s (by omega)]
    split
    · exact ⟨rfl, rfl⟩
    · exact ⟨rfl, rfl⟩

/-- Witness for C2: from a fresh counter the call only advances the counter;
from counter 4 the 5th call sweeps and resets the counter. -/
theorem c2_sweep_gating_witness :
    Game.move_enemies 60 25 sC2 = { sC2 with enemy_move_counter := 1 } ∧
    ((Game.move_enemies 60 25 sC1).enemy_move_counter = 0 ∧
      (Game.move_enemies 60 25 sC1).enemies =
        (if (sweepList 60 sC1.enemies 1).2.2
         then (dropAll 25 (sweepList 60 sC1.enemies 1).1).1
         else (sweepList 60 sC1.enemies 1).1)) :=
  ⟨(c2_sweep_gating 60 25 sC2).1 (by decide),
   (c2_sweep_gating 60 25 sC1).2 (by decide)⟩

/-- Claim C3: for a live player bullet at any point of the collision pass
— the enemy list may already contain enemies killed by earlier bullets of
the same tick, which the scan skips — the enemies are scanned in array
order; the first live enemy at the bullet's exact position is marked dead
together with the bullet, the score grows by exactly 10, and the enemies
after the match are left untouched by this bullet (so each bullet kills at
most one enemy, and the first live matching enemy in array order is the one
killed); the remaining bullets continue against the updated enemies. -/
theorem c3_first_match_kill (b : GameObject) (bs pre post : List GameObject)
    (e : GameObject) (sc : Nat)
    (hb : b.alive = true)
    (hpre : ∀ a ∈ pre, a.alive = true → ¬(a.x = b.x ∧ a.y = b.y))
    (heAlive : e.alive = true) (hex : e.x = b.x) (hey : e.y = b.y) :
    processBullets (b :: bs) (pre ++ e :: post) sc =
      ({ b with alive := false } ::
         (processBullets bs (pre ++ { e with alive := false } :: post)
           (sc + 10)).1,
       (processBullets bs (pre ++ { e with alive := false } :: post)
         (sc + 10)).2.1,
       (processBullets bs (pre ++ { e with alive := false } :: post)
         (sc + 10)).2.2) := by
  have hhit : hitEnemies b (pre ++ e :: post) =
      (true, pre ++ { e with alive := false } :: post) := by
    apply hitEnemies_split
    · intro a ha
      by_cases h1 : a.alive
      · have h2 := hpre a ha h1
        by_cases hxx : b.x = a.x
        · by_cases hyy : b.y = a.y
          · exact absurd ⟨hxx.symm, hyy.symm⟩ h2
          · simp [hxx, hyy, h1]
        · simp [hxx, h1]
      · simp only [Bool.not_eq_true] at h1
        simp [h1]
    · simp [heAlive, hex, hey]
  simp [processBullets, hb, hhit]

/-- Witness for C3, exercising the mid-pass case: the enemy list already
holds a dead enemy at the bullet's very position (killed by an earlier
bullet of the same tick); the scan skips it and kills the first live match
behind it, the bullet dies, and the score grows by 10. -/
theorem c3_first_match_kill_witness :
    processBullets [⟨5, 5, true⟩] [⟨5, 5, false⟩, ⟨5, 5, true⟩] 0 =
      ([⟨5, 5, false⟩], [⟨5, 5, false⟩, ⟨5, 5, false⟩], 10) :=
  c3_first_match_kill ⟨5, 5, true⟩ [] [⟨5, 5, false⟩] [] ⟨5, 5, true⟩ 0 rfl
    (by decide) rfl rfl rfl

/-- Claim C4, counterexample. A live player bullet at `y = 1` reaches the
top edge (`y = 0`) in this motion step yet stays alive through it (and
survives the embedded cleanup), and a live enemy bullet at `y = H-2 = 23`
reaches the bottom row `y = 24` and likewise stays alive — both are marked
dead only on the next motion step, contradicting death in the same step in
which the edge is reached. -/
theorem c4_counterexample :
    (Game.move_bullets 25 sC4).player_bullets = [⟨5, 0, true⟩] ∧
    (Game.move_bullets 25 sC4).enemy_bullets = [⟨7, 24, true⟩] := by
  decide

/-- Claim C4, amended: a live player bullet with `y > 0` moves up one row
(so it arrives at the top edge still alive), and a bullet whose motion step
begins at `y = 0` is marked dead in that step without moving — one step
after reaching the edge; symmetrically a live enemy bullet with `y < H-1`
moves down one row, and a motion step beginning at `y ≥ H-1` marks it dead
in place. -/
theorem c4_bullet_edge_death (H : Nat) (b : GameObject) :
    (b.alive = true → 0 < b.y → stepPlayerBullet b = { b with y := b.y - 1 }) ∧
    (b.y = 0 →
      (stepPlayerBullet b).alive = false ∧ (stepPlayerBullet b).x = b.x ∧
      (stepPlayerBullet b).y = b.y) ∧
    (b.alive = true → b.y < H - 1 → stepEnemyBullet H b = { b with y := b.y + 1 }) ∧
    (¬ b.y < H - 1 →
      (stepEnemyBullet H b).alive = false ∧ (stepEnemyBullet H b).x = b.x ∧
      (stepEnemyBullet H b).y = b.y) := by
  refine ⟨?_, ?_, ?_, ?_⟩
  · intro ha hy
    simp [stepPlayerBullet, ha, hy]
  · intro hy
    simp [stepPlayerBullet, hy]
  · intro ha hy
    simp [stepEnemyBullet, ha, hy]
  · intro hy
    simp [stepEnemyBullet, hy]

/-- Witness for C4's amended theorem: a bullet at `y = 3` moves; bullets
starting a step on the edges die in place. -/
theorem c4_bullet_edge_death_witness :
    stepPlayerBullet ⟨5, 3, true⟩ = ⟨5, 2, true⟩ ∧
    (stepPlayerBullet ⟨5, 0, true⟩).alive = false ∧
    stepEnemyBullet 25 ⟨5, 3, true⟩ = ⟨5, 4, true⟩ ∧
    (stepEnemyBullet 25 ⟨5, 24, true⟩).alive = false :=
  ⟨(c4_bullet_edge_death 25 ⟨5, 3, true⟩).1 rfl (by decide),
   ((c4_bullet_edge_death 25 ⟨5, 0, true⟩).2.1 rfl).1,
   (c4_bullet_edge_death 25 ⟨5, 3, true⟩).2.2.1 rfl (by decide),
   ((c4_bullet_edge_death 25 ⟨5, 24, true⟩).2.2.2 (by decide)).1⟩

/-- Claim C5: `move_player` sets the player's column to `x + d` exactly when
`0 < x + d < W - 1` and otherwise leaves it unchanged; a changed column is
always strictly inside the border, so no sequence of moves can place the
player on column 0 or column `W-1`; in particular `move_player (-1)` from
column 1 leaves the player at column 1. -/
theorem c5_move_player_clamped (W : Nat) (s : Game) (d : Int) :
    (Game.move_player W s d).player.x =
      (if 0 < (s.player.x : Int) + d ∧ (s.player.x : Int) + d < (W : Int) - 1
       then ((s.player.x : Int) + d).toNat else s.player.x) ∧
    ((Game.move_player W s d).player.x ≠ s.player.x →
      0 < (Game.move_player W s d).player.x ∧
      ((Game.move_player W s d).player.x : Int) < (W : Int) - 1) ∧
    (s.player.x = 1 → (Game.move_player W s (-1)).player.x = 1) := by
  have hx := move_player_x W s d
  refine ⟨hx, ?_, ?_⟩
  · intro hne
    rw [hx] at hne ⊢
    by_cases hc : 0 < (s.player.x : Int) + d ∧
        (s.player.x : Int) + d < (W : Int) - 1
    · rw [if_pos hc] at hne ⊢
      omega
    · rw [if_neg hc] at hne
      exact absurd rfl hne
  · intro h1
    have hx1 := move_player_x W s (-1)
    rw [h1] at hx1
    rw [hx1]
    norm_num

/-- Witness for C5: the left-border state stays at column 1 under a left
move, and an interior move lands strictly inside the border. -/
theorem c5_move_player_clamped_witness :
    (Game.move_player 60 sC5 (-1)).player.x = 1 ∧
    (0 < (Game.move_player 60 sC5b 1).player.x ∧
      ((Game.move_player 60 sC5b 1).player.x : Int) < (60 : Int) - 1) :=
  ⟨(c5_move_player_clamped 60 sC5 (-1)).2.2 rfl,
   (c5_move_player_clamped 60 sC5b 1).2.1 (by decide)⟩

/-- Claim C6: `game_over` is terminal — every operation of the game (player
movement, firing, bullet motion with its embedded collision pass, the enemy
sweep, enemy fire under any random outcome, and the collision stage itself)
maps a state with `game_over = true` to a state with `game_over = true`. -/
theorem c6_game_over_monotone (W H : Nat) (s : Game) (d : Int)
    (f : Nat → Bool) (h : s.game_over = true) :
    (Game.move_player W s d).game_over = true ∧
    (Game.shoot_bullet s).game_over = true ∧
    (Game.move_bullets H s).game_over = true ∧
    (Game.move_enemies W H s).game_over = true ∧
    (Game.enemy_shoot f s).game_over = true ∧
    (Game.check_collisions s).game_over = true := by
  refine ⟨by rw [move_player_game_over]; exact h, h, ?_, ?_, h, ?_⟩
  · rw [Game.move_bullets, check_collisions_game_over]
    split
    · rfl
    · exact h
  · exact move_enemies_game_over_mono W H s h
  · rw [check_collisions_game_over]
    split
    · rfl
    · exact h

/-- Witness for C6 at a finished game state: every operation leaves the
game over. -/
theorem c6_game_over_monotone_witness :
    (Game.move_player 60 sC6 1).game_over = true ∧
    (Game.shoot_bullet sC6).game_over = true ∧
    (Game.move_bullets 25 sC6).game_over = true ∧
    (Game.move_enemies 60 25 sC6).game_over = true ∧
    (Game.enemy_shoot (fun _ => false) sC6).game_over = true ∧
    (Game.check_collisions sC6).game_over = true :=
  c6_game_over_monotone 60 25 sC6 1 (fun _ => false) rfl

/-- Claim C7: pruning is idempotent — running the three `retain(alive)`
filters twice with no intervening mutation equals running them once; the
second run removes nothing. -/
theorem c7_prune_idempotent (s : Game) :
    Game.prune (Game.prune s) = Game.prune s := by
  cases s
  simp [Game.prune, List.filter_filter]

/-- Claim C8: in every state reachable from the fresh world by player
inputs and by full ticks run only while the game is not over (under any
random outcomes), every entity of the world — in particular every entity
present after the Motion & Spawn operations of a tick, since post-tick
states are exactly the states those operations produce — satisfies
`0 ≤ x < W` and `0 ≤ y < H`. -/
theorem c8_entities_in_bounds (s : Game) (h : Reachable s) :
    EntitiesInBounds s :=
  entitiesInBounds_of_gameInv s (gameInv_reachable s h)

/-- Witness for C8 at the initial state. -/
theorem c8_entities_in_bounds_witness : EntitiesInBounds Game.new :=
  c8_entities_in_bounds Game.new Reachable.init

/-- Claim C9: the snapshot grid is produced by writing player, then
enemies, then player bullets, then enemy bullets into a blank canvas, later
writes overwriting earlier ones — so each cell shows a bullet if any live
bullet of either kind is there, else an enemy if a live enemy is there,
else the player if the live player is there, else blank; bullets appear
over enemies and the player, and an enemy appears over a co-located
player. -/
theorem c9_render_write_order (s : Game) (y x : Nat) :
    Game.render s y x =
      (if s.enemy_bullets.any (fun b => b.alive && (y == b.y && x == b.x))
       then BULLET_CHAR
       else if s.player_bullets.any (fun b => b.alive && (y == b.y && x == b.x))
       then BULLET_CHAR
       else if s.enemies.any (fun e => e.alive && (y == e.y && x == e.x))
       then ENEMY_CHAR
       else if s.player.alive && (y == s.player.y && x == s.player.x)
       then PLAYER_CHAR
       else ' ') := by
  rw [Game.render, drawList_apply, drawList_apply, drawList_apply]
  by_cases h1 : s.enemy_bullets.any
      (fun b => b.alive && (y == b.y && x == b.x)) = true
  · simp [h1]
  · simp only [Bool.not_eq_true] at h1
    rw [h1]
    by_cases h2 : s.player_bullets.any
        (fun b => b.alive && (y == b.y && x == b.x)) = true
    · simp [h2]
    · simp only [Bool.not_eq_true] at h2
      rw [h2]
      by_cases h3 : s.enemies.any
          (fun e => e.alive && (y == e.y && x == e.x)) = true
      · simp [h3]
      · simp only [Bool.not_eq_true] at h3
        rw [h3]
        simp only [if_false, Bool.false_eq_true]
        by_cases hp : s.player.alive
        · by_cases hm : (y == s.player.y && x == s.player.x) = true
          · simp [hp, hm, writeCell]
          · simp only [Bool.not_eq_true] at hm
            simp [hp, hm, writeCell]
        · simp only [Bool.not_eq_true] at hp
          simp [hp]

/-- Claim C10: the collision stage is a pure bookkeeping pass — the player
never moves, and the entities remaining in each of the three collections
keep exactly the positions they had before the stage (the surviving
position sequences are subsequences of the originals); only alive flags,
the score, `game_over` and collection membership change, and the movement
counter is untouched. -/
theorem c10_collision_frame (s : Game) :
    (Game.check_collisions s).player.x = s.player.x ∧
    (Game.check_collisions s).player.y = s.player.y ∧
    List.Sublist ((Game.check_collisions s).enemies.map posOf)
      (s.enemies.map posOf) ∧
    List.Sublist ((Game.check_collisions s).player_bullets.map posOf)
      (s.player_bullets.map posOf) ∧
    List.Sublist ((Game.check_collisions s).enemy_bullets.map posOf)
      (s.enemy_bullets.map posOf) ∧
    (Game.check_collisions s).enemy_move_counter = s.enemy_move_counter := by
  refine ⟨?_, ?_, ?_, ?_, ?_, rfl⟩
  · rw [check_collisions_player]
    split
    · rfl
    · rfl
  · rw [check_collisions_player]
    split
    · rfl
    · rfl
  · rw [check_collisions_enemies]
    have h : List.Sublist
        ((((processBullets s.player_bullets s.enemies s.score).2.1).filter
          (fun e => e.alive)).map posOf)
        (((processBullets s.player_bullets s.enemies s.score).2.1).map posOf) :=
      List.Sublist.map posOf (List.filter_sublist _)
    rwa [(processBullets_map_pos s.player_bullets s.enemies s.score).2] at h
  · rw [check_collisions_player_bullets]
    have h : List.Sublist
        ((((processBullets s.player_bullets s.enemies s.score).1).filter
          (fun b => b.alive)).map posOf)
        (((processBullets s.player_bullets s.enemies s.score).1).map posOf) :=
      List.Sublist.map posOf (List.filter_sublist _)
    rwa [(processBullets_map_pos s.player_bullets s.enemies s.score).1] at h
  · rw [check_collisions_enemy_bullets]
    have h : List.Sublist
        ((((processEnemyBullets s.player.x s.player.y s.enemy_bullets).1).filter
          (fun b => b.alive)).map posOf)
        (((processEnemyBullets s.player.x s.player.y
            s.enemy_bullets).1).map posOf) :=
      List.Sublist.map posOf (List.filter_sublist _)
    rwa [processEnemyBullets_map_pos s.player.x s.player.y s.enemy_bullets] at h
